import Mathlib

/-!
Verification of the vazal agent repository: a shallow embedding of its
lesson store, agent think-step prompt handling, final-answer extraction,
persistent request channel, intent classification and block editor,
with theorems settling the specification claims about them.

Python-specific conventions used throughout the embedding:
* Python strings are Lean `String`s; string primitives (`lower`, `strip`,
  `split`, substring tests, slicing) are re-implemented over `String.data`.
* Python `a in s` substring tests are `pyContainsSub`.
* Python truthiness of a possibly-`None` string is `pyTruthyStr`
  (both `None` and `""` are falsy).
* Python `list.sort(key=..., reverse=True)` is a stable descending sort,
  realised by the insertion sort `sortByScoreDesc`.
-/

namespace Vazal

/-!
Python strings are sequences of code points, so the string primitives the
source uses (`in`, `split`, `lower`, `strip`, slicing, …) are implemented
here structurally over `String.data : List Char`.  Lean's own
`String.splitOn`-style functions are avoided because their well-founded
recursion does not reduce inside the kernel, which every concrete witness
below relies on.
-/

/-- `needle` is a prefix of `hay` (on code points). -/
def charsStartWith : List Char → List Char → Bool
  | _, [] => true
  | [], _ :: _ => false
  | a :: as, b :: bs => a == b && charsStartWith as bs

/-- `needle` occurs somewhere in `hay` (on code points). -/
def charsContains (hay needle : List Char) : Bool :=
  charsStartWith hay needle ||
    match hay with
    | [] => false
    | _ :: t => charsContains t needle

/-- Python `needle in hay` substring test (`"" in s` is `True` in Python). -/
def pyContainsSub (hay needle : String) : Bool :=
  charsContains hay.data needle.data

/-- Python `str == ""` / falsiness of a string. -/
def pyStrEmpty (s : String) : Bool :=
  s.data.isEmpty

/-- Fuel-driven worker for `pySplitOn`; the fuel is an upper bound on the
length of the remaining haystack, so it never runs out in `pySplitOn`. -/
def splitOnGo (sep : List Char) : Nat → List Char → List Char →
    List (List Char)
  | 0, hay, acc => [acc.reverse ++ hay]
  | _ + 1, [], acc => [acc.reverse]
  | fuel + 1, c :: t, acc =>
    if !sep.isEmpty && charsStartWith (c :: t) sep then
      acc.reverse :: splitOnGo sep fuel ((c :: t).drop sep.length) []
    else splitOnGo sep fuel t (c :: acc)

/-- Python `hay.split(sep)` for a non-empty separator: the pieces between
consecutive non-overlapping occurrences of `sep`, scanned left to right. -/
def pySplitOn (hay sep : String) : List String :=
  (splitOnGo sep.data (hay.data.length + 1) hay.data []).map List.asString

/-- Worker for whitespace splitting, carrying the reversed current word. -/
def wordsGo : List Char → List Char → List String
  | [], acc => if acc.isEmpty then [] else [acc.reverse.asString]
  | c :: t, acc =>
    if c.isWhitespace then
      if acc.isEmpty then wordsGo t [] else acc.reverse.asString :: wordsGo t []
    else wordsGo t (c :: acc)

/-- Python `str.split()` with no argument: split on whitespace runs,
dropping empty pieces. -/
def pySplit (s : String) : List String :=
  wordsGo s.data []

/-- ASCII lower-casing of one code point (what `str.lower()` does on the
ASCII strings this codebase handles). -/
def pyLowerChar (c : Char) : Char :=
  if 'A' ≤ c && c ≤ 'Z' then Char.ofNat (c.toNat + 32) else c

/-- Python `str.lower()` (ASCII). -/
def pyLower (s : String) : String :=
  (s.data.map pyLowerChar).asString

/-- ASCII upper-casing of one code point. -/
def pyUpperChar (c : Char) : Char :=
  if 'a' ≤ c && c ≤ 'z' then Char.ofNat (c.toNat - 32) else c

/-- Python `str.upper()` (ASCII). -/
def pyUpper (s : String) : String :=
  (s.data.map pyUpperChar).asString

/-- Python `str.strip()`: drop leading and trailing whitespace. -/
def pyStrip (s : String) : String :=
  (((s.data.dropWhile Char.isWhitespace).reverse.dropWhile
    Char.isWhitespace).reverse).asString

/-- Python `str.rstrip()`: drop trailing whitespace. -/
def pyRstrip (s : String) : String :=
  ((s.data.reverse.dropWhile Char.isWhitespace).reverse).asString

/-- Python `sep.join(xs)`. -/
def pyJoin (sep : String) : List String → String
  | [] => ""
  | x :: rest => rest.foldl (fun acc y => acc ++ sep ++ y) x

/-- Python `s.startswith(t)`. -/
def pyStartsWith (s t : String) : Bool :=
  charsStartWith s.data t.data

/-- Python `s.endswith(t)`. -/
def pyEndsWith (s t : String) : Bool :=
  charsStartWith s.data.reverse t.data.reverse

/-- Python `s[:n]` on strings. -/
def pyTakeStr (n : Nat) (s : String) : String :=
  (s.data.take n).asString

/-- Python `str.splitlines()` (for `\n`-separated text): no trailing empty
piece when the text ends in a newline; `""` gives `[]`. -/
def pySplitlines (s : String) : List String :=
  if pyStrEmpty s then []
  else
    let parts := pySplitOn s "\n"
    if pyEndsWith s "\n" then parts.dropLast else parts

/-- Python truthiness of an optional string: `None` and `""` are falsy. -/
def pyTruthyStr : Option String → Bool
  | none => false
  | some s => !pyStrEmpty s

/-- Python `l[-n:]`: the last `n` elements (all of them when `l` is shorter). -/
def pyLastN {α : Type} (n : Nat) (l : List α) : List α :=
  l.drop (l.length - n)

/-! ## Lesson store (`app/memory/lessons.py`, class `LessonManager`)

A lesson is a dict `{"content": ..., "tags": [...]}`; the manager state is
the in-memory list `self.lessons` (the JSON file persisted on each save is
a dump of exactly this list, so the list models both). -/

structure Lesson where
  content : String
  tags : List String
  deriving Repr, DecidableEq

/-- `LessonManager.save_lesson`: return unchanged on an exact content
duplicate, otherwise append `{"content": content, "tags": tags}`. -/
def save_lesson (store : List Lesson) (content : String) (tags : List String) :
    List Lesson :=
  if store.any (fun l => l.content == content) then store
  else store ++ [⟨content, tags⟩]

/-- The per-lesson keyword score of `LessonManager.get_relevant_lessons`:
for each distinct query word of length ≥ 3, +1 if it occurs in the
lowercased content, +2 more if it occurs in some lowercased tag.
`queryWords` models the Python `set(query.lower().split())`; the running
`score` accumulator mirrors the source loop (set iteration order is
irrelevant because the per-word contributions are summed). -/
def lessonScore (queryWords : List String) (l : Lesson) : Nat :=
  queryWords.foldl
    (fun score w =>
      if w.length < 3 then score
      else
        let s1 := if pyContainsSub (pyLower l.content) w then score + 1 else score
        if (l.tags.map pyLower).any (fun t => pyContainsSub t w) then
          s1 + 2
        else s1)
    0

/-- Stable insertion of a `(score, content)` pair into a list already
sorted by descending score: the new element goes before the first element
whose score is at most its own.  Together with `sortByScoreDesc` folding
from the right (so earlier elements are inserted later and land in front
of equals) this realises Python stable `sort(key=score, reverse=True)`. -/
def insertByScoreDesc (x : Nat × String) :
    List (Nat × String) → List (Nat × String)
  | [] => [x]
  | y :: ys => if x.1 ≥ y.1 then x :: y :: ys else y :: insertByScoreDesc x ys

/-- Python `list.sort(key=lambda x: x[0], reverse=True)`: stable descending
sort by the first component (elements with equal scores keep their
original relative order). -/
def sortByScoreDesc (l : List (Nat × String)) : List (Nat × String) :=
  l.foldr insertByScoreDesc []

/-- `LessonManager.get_relevant_lessons`: empty-store and empty-query
short-circuits, keyword scoring, stable descending sort, top 5, fallback
to the 3 most recent lessons when nothing scores above zero. -/
def get_relevant_lessons (store : List Lesson) (query : String) : String :=
  if store.isEmpty then ""
  else if pyStrEmpty query then
    let recent := (pyLastN 5 store).map (·.content)
    let formatted := pyJoin "\n" (recent.map (fun l => "- " ++ l))
    "\n\n## 🧠 RECENT LESSONS:\n" ++ formatted ++ "\n"
  else
    let queryWords := (pySplit (pyLower query)).dedup
    let scored := store.filterMap (fun l =>
      let sc := lessonScore queryWords l
      if sc > 0 then some (sc, l.content) else none)
    let sorted := sortByScoreDesc scored
    let top := (sorted.take 5).map (·.2)
    let top := if top.isEmpty then (pyLastN 3 store).map (·.content) else top
    let formatted := pyJoin "\n" (top.map (fun l => "- " ++ l))
    "\n\n## 🧠 RELEVANT LESSONS:\n" ++ formatted ++ "\n"

/-! ### Claim C1, as the spec words it

The claim version of retrieval differs from the source in exactly one
point: score ties are broken most-recent-first.  With a stable sort that
means scoring over the store in most-recent-first order. -/

/-- Retrieval as claim C1 states it: identical to the source except that
equal-score lessons are ranked most-recent-first (the stable sort is run
over the reversed store). -/
def getRelevantLessonsClaimC1 (store : List Lesson) (query : String) : String :=
  if store.isEmpty then ""
  else if pyStrEmpty query then
    let recent := (pyLastN 5 store).map (·.content)
    let formatted := pyJoin "\n" (recent.map (fun l => "- " ++ l))
    "\n\n## 🧠 RECENT LESSONS:\n" ++ formatted ++ "\n"
  else
    let queryWords := (pySplit (pyLower query)).dedup
    let scored := store.reverse.filterMap (fun l =>
      let sc := lessonScore queryWords l
      if sc > 0 then some (sc, l.content) else none)
    let sorted := sortByScoreDesc scored
    let top := (sorted.take 5).map (·.2)
    let top := if top.isEmpty then (pyLastN 3 store).map (·.content) else top
    let formatted := pyJoin "\n" (top.map (fun l => "- " ++ l))
    "\n\n## 🧠 RELEVANT LESSONS:\n" ++ formatted ++ "\n"

/-- The amended per-lesson score, written as the spec sentence reads: a sum
over the distinct query words of length at least 3 of (+1 when the word
occurs in the content) + (+2 when it occurs in a tag). -/
def specScore (queryWords : List String) (l : Lesson) : Nat :=
  ((queryWords.filter (fun w => 3 ≤ w.length)).map
    (fun w =>
      (if pyContainsSub (pyLower l.content) w then 1 else 0) +
      (if (l.tags.map pyLower).any (fun t => pyContainsSub t w) then 2
       else 0))).sum

/-- Retrieval as amended claim C1 states it: score by `specScore`, keep the
positive scorers in store order, stably sort by descending score (so ties
stay oldest-first), take 5; when no lesson scores above zero fall back to
the 3 most recent lessons. -/
def getRelevantLessonsAmendedC1 (store : List Lesson) (query : String) :
    String :=
  if store.isEmpty then ""
  else if pyStrEmpty query then
    let recent := (pyLastN 5 store).map (·.content)
    let formatted := pyJoin "\n" (recent.map (fun l => "- " ++ l))
    "\n\n## 🧠 RECENT LESSONS:\n" ++ formatted ++ "\n"
  else
    let queryWords := (pySplit (pyLower query)).dedup
    let scored := store.filterMap (fun l =>
      let sc := specScore queryWords l
      if sc > 0 then some (sc, l.content) else none)
    let top := ((sortByScoreDesc scored).take 5).map (·.2)
    let top := if top.isEmpty then (pyLastN 3 store).map (·.content) else top
    let formatted := pyJoin "\n" (top.map (fun l => "- " ++ l))
    "\n\n## 🧠 RELEVANT LESSONS:\n" ++ formatted ++ "\n"

/-- The score contribution of a single query word. -/
def wordContrib (l : Lesson) (w : String) : Nat :=
  if w.length < 3 then 0
  else
    (if pyContainsSub (pyLower l.content) w then 1 else 0) +
    (if (l.tags.map pyLower).any (fun t => pyContainsSub t w) then 2
     else 0)

/-! ## Vector lesson store (`app/memory/vector_lessons.py`,
class `VectorLessonManager`)

The Chroma collection is modelled as the list of its records in insertion
order.  A record carries the metadata the source writes: content, scope
(upper-cased), role (lower-cased), timestamp, the comma-joined tags, and
the id.  The `uuid.uuid4()` and `datetime.now()` environment values are
passed in as parameters. -/

structure VLesson where
  content : String
  scope : String
  role : String
  timestamp : String
  tags : String
  id : String
  deriving Repr, DecidableEq

/-- `VectorLessonManager.save_lesson`: return unchanged when a record with
exactly this content exists, else add the record with upper-cased scope,
lower-cased role and comma-joined tags. -/
def vector_save_lesson (store : List VLesson) (content scope role : String)
    (tags : List String) (id timestamp : String) : List VLesson :=
  if store.any (fun l => l.content == content) then store
  else
    store ++
      [⟨content, pyUpper scope, pyLower role, timestamp,
        pyJoin "," tags, id⟩]

/-- A legacy lesson-file entry: either a bare string or a dict with
`content` and (possibly defaulted-empty) `tags`. -/
inductive LegacyItem where
  | str (s : String)
  | dict (content : String) (tags : List String)
  deriving Repr, DecidableEq

def legacyContent : LegacyItem → String
  | .str s => s
  | .dict c _ => c

def legacyTags : LegacyItem → List String
  | .str _ => []
  | .dict _ t => t

/-- The scope/role scan of `VectorLessonManager._migrate_old_lessons`:
starting from `("GENERAL", "none")`, each tag containing `"role:"` sets
scope `ROLE` and the role to the text after the first `"role:"`, and each
other tag containing `"user"` sets scope `USER` (leaving the role). -/
def scopeStep (p : String × String) (tag : String) : String × String :=
  if pyContainsSub tag "role:" then ("ROLE", (pySplitOn tag "role:").getD 1 "")
  else if pyContainsSub tag "user" then ("USER", p.2)
  else p

def migrateScopeRole (tags : List String) : String × String :=
  tags.foldl scopeStep ("GENERAL", "none")

/-- The migration loop body of `_migrate_old_lessons`: saves each legacy
item with the scope/role derived from its tags; `i` counts iterations so
that the environment-supplied uuid and timestamp are fresh per item. -/
def migrateGo (uuid now : Nat → String) : Nat → List VLesson →
    List LegacyItem → List VLesson
  | _, store, [] => store
  | i, store, item :: rest =>
    let sr := migrateScopeRole (legacyTags item)
    migrateGo uuid now (i + 1)
      (vector_save_lesson store (legacyContent item) sr.1 sr.2
        (legacyTags item) (uuid i) (now i))
      rest

/-- `VectorLessonManager._migrate_old_lessons`, run on an empty collection
(the source only migrates when `collection.count() == 0`). -/
def migrate_old_lessons (uuid now : Nat → String) (data : List LegacyItem) :
    List VLesson :=
  migrateGo uuid now 0 [] data

/-- The pure per-item upgrade the amended claim C5 describes: content kept,
scope and role from the tag scan (role lower-cased on store), tags joined,
environment id/timestamp. -/
def upgradeLegacy (uuid now : Nat → String) (i : Nat) (item : LegacyItem) :
    VLesson :=
  let sr := migrateScopeRole (legacyTags item)
  ⟨legacyContent item, sr.1, pyLower sr.2, now i,
    pyJoin "," (legacyTags item), uuid i⟩

/-- Mapping the pure upgrade over a legacy list with a running index. -/
def upgradeAll (uuid now : Nat → String) : Nat → List LegacyItem →
    List VLesson
  | _, [] => []
  | i, item :: rest =>
    upgradeLegacy uuid now i item :: upgradeAll uuid now (i + 1) rest

/-! ## Vector lesson retrieval (`VectorLessonManager.get_relevant_lessons`)

The Chroma semantic `query` call is an external collaborator (an embedding
model); it is modelled by a parameter `semQ` that, given the query text and
the metadata-filtered candidate records, returns them ranked; `n_results`
is the `take` applied to its answer.  `collection.get(where=..., limit=20)`
returns the matching records in insertion order, capped at the limit. -/

/-- The `results_text` line list built by
`VectorLessonManager.get_relevant_lessons`: USER tier (capped get), ROLE
tier (semantic, only with an active role), GENERAL tier (semantic, only
with a non-empty query). -/
def vectorGetRelevant (semQ : String → List VLesson → List VLesson)
    (store : List VLesson) (query current_role : String) : List String :=
  let userLessons := (store.filter (fun v => v.scope == "USER")).take 20
  let t1 :=
    if userLessons.isEmpty then []
    else "## 👤 USER PREFERENCES (Always Active):" ::
      userLessons.map (fun v => "- " ++ v.content)
  let t2 :=
    if !(pyStrEmpty current_role) && current_role != "none" then
      let cands := store.filter
        (fun v => v.scope == "ROLE" && v.role == current_role)
      let docs := (semQ (if pyStrEmpty query then "general guidelines" else query)
        cands).take 5
      if docs.isEmpty then []
      else ("\n## 👔 ROLE GUIDELINES (" ++ current_role ++ "):") ::
        docs.map (fun v => "- " ++ v.content)
    else []
  let t3 :=
    if !pyStrEmpty query then
      let docs := (semQ query
        (store.filter (fun v => v.scope == "GENERAL"))).take 5
      if docs.isEmpty then []
      else "\n## 🧠 RELEVANT KNOWLEDGE:" ::
        docs.map (fun v => "- " ++ v.content)
    else []
  t1 ++ t2 ++ t3

/-- The text block `VectorLessonManager.get_relevant_lessons` returns:
empty when no tier produced lines, else the joined lines wrapped in
newlines. -/
def vector_get_relevant_lessons (semQ : String → List VLesson → List VLesson)
    (store : List VLesson) (query current_role : String) : String :=
  let r := vectorGetRelevant semQ store query current_role
  if r.isEmpty then "" else "\n\n" ++ pyJoin "\n" r ++ "\n"

/-! ## Messages (`app/schema.py` is not part of the sources given)

Modelled from the spec: a Message has a role, an optional content and a
list of tool calls; a ToolCall carries the function name and its JSON
arguments string.  The `json.loads` of an arguments string is an external
standard-library step; a call's arguments are therefore modelled in
already-decoded form as an optional string-to-string record, `none`
standing for a string `json.loads` rejects. -/

inductive Role where
  | system
  | user
  | assistant
  | tool
  deriving Repr, DecidableEq

structure ToolCall where
  name : String
  arguments : Option (List (String × String))
  deriving Repr, DecidableEq

structure Message where
  role : Role
  content : Option String
  tool_calls : List ToolCall
  deriving Repr, DecidableEq

/-! ## Agent think step (`app/agent/vazal.py` / `app/agent/manus.py`,
`Vazal.think`)

The agent state carries the two prompt fields, the message log and the
lesson store (`LessonManager`).  The inner `super().think()`
(`ToolCallAgent.think`, not among the given sources) is a parameter: it
transforms the state and either returns a `Bool` or raises, a raise being
`none` in the first component with the mutated state still in the second
(Python exceptions do not roll back mutations).  The browser-specific
next-step prompt produced by `browser_context_helper.format_next_step_prompt`
is likewise a parameter.  The one-time MCP initialisation at the top of
`think` only extends `available_tools` and touches neither prompt nor log,
so it does not appear in this state. -/

structure AgentState where
  system_prompt : String
  next_step_prompt : String
  messages : List Message
  lessons : List Lesson
  deriving Repr, DecidableEq

/-- The `browser_in_use` scan of `Vazal.think`: some tool call named
`browser_use` among the last three messages. -/
def browserInUse (msgs : List Message) : Bool :=
  let recent := if msgs.isEmpty then [] else pyLastN 3 msgs
  recent.any (fun m =>
    !m.tool_calls.isEmpty && m.tool_calls.any (fun tc => tc.name == "browser_use"))

/-- The state `Vazal.think` hands to the inner `super().think()`: the
retrieved lessons appended to the system prompt, and the browser-specific
next-step prompt swapped in when the browser was recently in use. -/
def thinkInjectedState (browserPrompt : String) (s : AgentState) :
    AgentState :=
  let lessons := get_relevant_lessons s.lessons ""
  let s1 := { s with system_prompt := s.system_prompt ++ lessons }
  if browserInUse s1.messages then { s1 with next_step_prompt := browserPrompt }
  else s1

/-- `Vazal.think`: inject the prompts, run the inner think step, then
restore both prompts to the captured originals (`original_system_prompt`
is read before the injection and `original_prompt` after it, but the
injection does not touch `next_step_prompt`, so both equal the fields of
`s`).  The restore lines are only reached when the inner step returns
normally; a raise (`none`) propagates with the state as the inner step
left it. -/
def vazalThink (inner : AgentState → Option Bool × AgentState)
    (browserPrompt : String) (s : AgentState) : Option Bool × AgentState :=
  match inner (thinkInjectedState browserPrompt s) with
  | (none, s3) => (none, s3)
  | (some b, s3) =>
    (some b,
      { s3 with
        next_step_prompt := s.next_step_prompt
        system_prompt := s.system_prompt })

/-- An inner think step that raises immediately (used to exercise the
exception path of `vazalThink`). -/
def raisingInner : AgentState → Option Bool × AgentState :=
  fun s => (none, s)

/-- A concrete agent state with one stored lesson, so that the think step
injects a non-empty lesson block. -/
def c3State : AgentState :=
  { system_prompt := "SYS"
    next_step_prompt := "NEXT"
    messages := []
    lessons := [⟨"prefers metric units", []⟩] }

/-! ## Final-answer extraction (`main.py`, `main`, lines 180-226)

`final_answer` starts as the completion notice; the first backwards scan
looks at assistant messages, preferring a terminate call's truthy `output`
argument (the last such tool call of the message wins — the inner loop has
no break) over the message's truthy content, and moving on to older
assistant messages when a message has neither; the tool-output fallback
scan runs only when the answer still equals the notice. -/

/-- One iteration of the terminate-output scan: a terminate call whose
decoded arguments carry a truthy `output` overwrites the accumulator. -/
def terminateStep (acc : Option String) (tc : ToolCall) : Option String :=
  if tc.name == "terminate" then
    match tc.arguments with
    | none => acc
    | some args =>
      match args.lookup "output" with
      | some v => if pyStrEmpty v then acc else some v
      | none => acc
  else acc

/-- The terminate-output scan over one assistant message's tool calls
(no break in the source loop, so the last truthy output wins). -/
def terminateOutput (m : Message) : Option String :=
  m.tool_calls.foldl terminateStep none

/-- The first backwards scan of the extraction: walk the reversed message
list; at each assistant message take the terminate output if any, else the
truthy content, else keep walking. -/
def extractScan : List Message → Option String
  | [] => none
  | m :: rest =>
    if m.role == Role.assistant then
      match terminateOutput m with
      | some o => some o
      | none =>
        if pyTruthyStr m.content then some (m.content.getD "")
        else extractScan rest
    else extractScan rest

/-- The fixed completion notice `final_answer` is initialised with. -/
def completionNotice : String := "✅ Task Completed."

/-- `main.py` final-answer extraction: the assistant scan, then — only when
the answer still equals the notice — the last truthy tool output,
decorated and truncated to 2000 characters. -/
def extractFinalAnswer (msgs : List Message) : String :=
  let final :=
    match extractScan msgs.reverse with
    | some a => a
    | none => completionNotice
  if final == completionNotice then
    match msgs.reverse.find? (fun m =>
        m.role == Role.tool && pyTruthyStr m.content) with
    | some m =>
      "✅ Task Completed. Last Tool Output:\n\n" ++
        pyTakeStr 2000 (m.content.getD "") ++ "..."
    | none => final
  else final

/-- Final-answer extraction as claim C6 words it: one global priority —
any terminate output in the log first (the most recent), else the truthy
content of the most recent assistant message, else the most recent truthy
tool output (decorated as the source decorates it), else the notice. -/
def extractClaimC6 (msgs : List Message) : String :=
  match msgs.reverse.findSome? terminateOutput with
  | some o => o
  | none =>
    match msgs.reverse.find? (fun m => m.role == Role.assistant) with
    | some m =>
      if pyTruthyStr m.content then m.content.getD ""
      else
        match msgs.reverse.find? (fun m =>
            m.role == Role.tool && pyTruthyStr m.content) with
        | some t =>
          "✅ Task Completed. Last Tool Output:\n\n" ++
            pyTakeStr 2000 (t.content.getD "") ++ "..."
        | none => completionNotice
    | none =>
      match msgs.reverse.find? (fun m =>
          m.role == Role.tool && pyTruthyStr m.content) with
      | some t =>
        "✅ Task Completed. Last Tool Output:\n\n" ++
          pyTakeStr 2000 (t.content.getD "") ++ "..."
      | none => completionNotice

/-- Final-answer extraction as the amended claim C6 words it: scan
assistant messages most-recent-first, each message yielding its terminate
output if truthy, else its truthy content; the first yielding message
decides.  When none yields and the scan result is (or equals) the
completion notice, surface the most recent truthy tool output decorated
with the completion prefix; else the notice. -/
def extractAmendedC6 (msgs : List Message) : String :=
  let scanned := msgs.reverse.findSome? (fun m =>
    if m.role == Role.assistant then
      match terminateOutput m with
      | some o => some o
      | none => if pyTruthyStr m.content then some (m.content.getD "") else none
    else none)
  let final := scanned.getD completionNotice
  if final == completionNotice then
    match msgs.reverse.find? (fun m =>
        m.role == Role.tool && pyTruthyStr m.content) with
    | some m =>
      "✅ Task Completed. Last Tool Output:\n\n" ++
        pyTakeStr 2000 (m.content.getD "") ++ "..."
    | none => final
  else final

/-- The two-message log on which the source extraction and the claimed
global priority disagree: an older assistant message that called
`terminate` with output `"Y"`, then a newer assistant message whose
content is `"X"`. -/
def c6Log : List Message :=
  [⟨Role.assistant, none, [⟨"terminate", some [("output", "Y")]⟩]⟩,
   ⟨Role.assistant, some "X", []⟩]

/-! ## Final-answer extraction (`server/persistent_wrapper.py`,
`execute_task`, lines 156-187)

The second extraction claim C6 cites.  Its inner tool-call loop breaks at
the first truthy terminate output of a message, but there is no break of
the outer message loop after setting it, so older messages keep
overwriting `final`; the outer loop breaks only at a message with truthy
content reached while `final` is still falsy.  The empty-answer fallback
is a created-files listing (never a tool output); `find_output_files` is a
filesystem scan (an external collaborator) passed in as the `files`
list. -/

/-- The inner tool-call loop of `execute_task`: the first terminate call
with decodable arguments and a truthy `output` wins (the loop breaks). -/
def terminateOutputFirst : List ToolCall → Option String
  | [] => none
  | tc :: rest =>
    if tc.name == "terminate" then
      match tc.arguments with
      | none => terminateOutputFirst rest
      | some args =>
        match args.lookup "output" with
        | some v => if pyStrEmpty v then terminateOutputFirst rest else some v
        | none => terminateOutputFirst rest
    else terminateOutputFirst rest

/-- The message loop of `execute_task` over the reversed (newest-first)
log, carrying the running `final` string (initially `""`): an assistant
message's first truthy terminate output overwrites `final`
unconditionally; a truthy content answers and stops only while `final` is
still falsy. -/
def executeTaskScan : List Message → String → String
  | [], final => final
  | m :: rest, final =>
    if m.role == Role.assistant then
      let final1 :=
        match terminateOutputFirst m.tool_calls with
        | some o => o
        | none => final
      if pyStrEmpty final1 && pyTruthyStr m.content then m.content.getD ""
      else executeTaskScan rest final1
    else executeTaskScan rest final

/-- The answer `execute_task` returns as `content`: the scan result, a
created-files listing or bare notice when the scan was falsy, and a files
suffix appended when files were created and the answer does not mention
`file`. -/
def executeTaskFinal (files : List String) (msgs : List Message) : String :=
  let final := executeTaskScan msgs.reverse ""
  if pyStrEmpty final then
    if !files.isEmpty then
      "✅ Task completed! Created " ++ toString files.length ++
        " file(s):\n" ++ pyJoin "\n" (files.map (fun f => "📄 " ++ f))
    else "✅ Task completed."
  else if !files.isEmpty && !(pyContainsSub (pyLower final) "file") then
    final ++ "\n\n📁 Output files: " ++ pyJoin ", " files
  else final

/-- The terminate output of the oldest assistant message bearing one, on a
newest-first message list (later elements are older, and are preferred). -/
def lastTermOutput : List Message → Option String
  | [] => none
  | m :: rest =>
    match lastTermOutput rest with
    | some o => some o
    | none =>
      if m.role == Role.assistant then terminateOutputFirst m.tool_calls
      else none

/-- The net effect of `executeTaskScan`, as the amended claim C6 words it:
the newest assistant message with a truthy terminate output or truthy
content decides — by its content when it has no terminate output, and
otherwise by the terminate output of the oldest assistant message bearing
one (the scan keeps overwriting and never breaks once an output is
seen). -/
def executeTaskScanSpec (msgs : List Message) : String :=
  match msgs.reverse.find? (fun m => m.role == Role.assistant &&
      ((terminateOutputFirst m.tool_calls).isSome || pyTruthyStr m.content))
    with
  | none => ""
  | some m =>
    match terminateOutputFirst m.tool_calls with
    | none => m.content.getD ""
    | some _ =>
      match lastTermOutput msgs.reverse with
      | some o => o
      | none => ""

/-! ## JSON values and `json.loads`

Modelled from the spec: the request channel and the classifier grammar are
line-delimited JSON.  `json.loads` is the Python standard library (an
external collaborator); `pyLoads` is an executable model of it on the
fragment the sources exercise — null, booleans, integers, escape-free
strings, arrays and objects — returning `none` where `json.loads` raises
`JSONDecodeError` (and on the escape/float constructs outside the
fragment). -/

inductive Json where
  | null
  | bool (b : Bool)
  | num (n : Int)
  | str (s : String)
  | arr (elems : List Json)
  | obj (fields : List (String × Json))

/-- JSON inter-token whitespace. -/
def skipWs (cs : List Char) : List Char :=
  cs.dropWhile (fun c => c == ' ' || c == '\n' || c == '\t' || c == '\r')

/-- Scan a JSON string body up to the closing quote (no escape support:
a backslash makes the parse fail). -/
def parseStrGo : List Char → List Char → Option (String × List Char)
  | [], _ => none
  | c :: t, acc =>
    if c == '\"' then some (acc.reverse.asString, t)
    else if c == '\\' then none
    else parseStrGo t (c :: acc)

def digitsToNat (ds : List Char) : Nat :=
  ds.foldl (fun n c => n * 10 + (c.toNat - 48)) 0

mutual

/-- Fuel-driven JSON value parser (the fuel is at least the input length,
so it never runs out on inputs fed through `pyLoads`). -/
def parseJsonGo : Nat → List Char → Option (Json × List Char)
  | 0, _ => none
  | fuel + 1, cs =>
    let cs := skipWs cs
    match cs with
    | [] => none
    | c :: t =>
      if c == '\"' then
        match parseStrGo t [] with
        | some (s, r) => some (.str s, r)
        | none => none
      else if c == '\x7b' then parseObjGo fuel t
      else if c == '[' then parseArrGo fuel t
      else if charsStartWith cs "true".data then some (.bool true, cs.drop 4)
      else if charsStartWith cs "false".data then some (.bool false, cs.drop 5)
      else if charsStartWith cs "null".data then some (.null, cs.drop 4)
      else
        let neg := c == '-'
        let cs2 := if neg then t else cs
        let ds := cs2.takeWhile Char.isDigit
        if ds.isEmpty then none
        else
          let n : Int := digitsToNat ds
          some (.num (if neg then -n else n), cs2.drop ds.length)

/-- Array elements after the opening bracket. -/
def parseArrGo : Nat → List Char → Option (Json × List Char)
  | 0, _ => none
  | fuel + 1, cs =>
    match skipWs cs with
    | ']' :: t => some (.arr [], t)
    | cs2 =>
      match parseJsonGo fuel cs2 with
      | none => none
      | some (j, r) =>
        match skipWs r with
        | ',' :: t =>
          match parseArrGo fuel t with
          | some (.arr js, r2) => some (.arr (j :: js), r2)
          | _ => none
        | ']' :: t => some (.arr [j], t)
        | _ => none

/-- Object fields after the opening brace. -/
def parseObjGo : Nat → List Char → Option (Json × List Char)
  | 0, _ => none
  | fuel + 1, cs =>
    match skipWs cs with
    | '\x7d' :: t => some (.obj [], t)
    | '\"' :: t =>
      match parseStrGo t [] with
      | none => none
      | some (k, r) =>
        match skipWs r with
        | ':' :: r2 =>
          match parseJsonGo fuel r2 with
          | none => none
          | some (v, r3) =>
            match skipWs r3 with
            | ',' :: r4 =>
              match parseObjGo fuel r4 with
              | some (.obj kvs, r5) => some (.obj ((k, v) :: kvs), r5)
              | _ => none
            | '\x7d' :: r4 => some (.obj [(k, v)], r4)
            | _ => none
        | _ => none
    | _ => none

end

/-- Model of Python `json.loads` on the fragment above: a full parse of
the input with only trailing whitespace allowed; `none` models a raised
`JSONDecodeError`. -/
def pyLoads (s : String) : Option Json :=
  match parseJsonGo (s.data.length + 1) s.data with
  | some (j, rest) => if (skipWs rest).isEmpty then some j else none
  | none => none

/-- Model of Python `str()` on a parsed JSON value, used only to build the
unknown-mode error message: exact on the scalar values realistic inputs
put in `mode`, a placeholder on containers. -/
def renderJson : Json → String
  | .null => "None"
  | .bool true => "True"
  | .bool false => "False"
  | .num n => toString n
  | .str s => s
  | .arr _ => "[...]"
  | .obj _ => "\x7b...\x7d"

/-- Python `mode == "classify"`-style comparison of a decoded JSON value
with a string literal. -/
def Json.isStr : Json → String → Bool
  | .str t, s => t == s
  | _, _ => false

/-! ## Intent classification (`server/persistent_wrapper.py` and
`server/vazal_wrapper.py`, `classify_intent`)

Only the reply post-processing is code under the sources; the LLM call
itself is the external collaborator, so both functions here take the LLM
reply as an argument. -/

/-- The code-fence stripping of `persistent_wrapper.classify_intent`. -/
def fenceExtractPersistent (result : String) : String :=
  let r := pyStrip result
  if pyContainsSub r "```" then
    let seg := pyStrip ((pySplitOn r "```").getD 1 "")
    if pyStartsWith seg "json" then pyStrip (seg.data.drop 4).asString else seg
  else r

/-- The code-fence stripping of `vazal_wrapper.classify_intent`, which
also recognises an explicit ```` ```json ```` fence. -/
def fenceExtractVazal (result : String) : String :=
  let r := pyStrip result
  if pyContainsSub r "```json" then
    pyStrip ((pySplitOn ((pySplitOn r "```json").getD 1 "") "```").getD 0 "")
  else if pyContainsSub r "```" then
    pyStrip ((pySplitOn ((pySplitOn r "```").getD 1 "") "```").getD 0 "")
  else r

/-- The brace windowing both classifiers apply: slice from the first
opening brace to the last closing brace when that window is non-empty. -/
def braceSliceStr (s : String) : String :=
  match s.data.findIdx? (fun c => c == '\x7b'),
      s.data.reverse.findIdx? (fun c => c == '\x7d') with
  | some st, some ri =>
    let en := s.data.length - ri
    if st < en then ((s.data.drop st).take (en - st)).asString else s
  | _, _ => s

/-- The reply text `persistent_wrapper.classify_intent` hands to
`json.loads`. -/
def classifyExtractPersistent (reply : String) : String :=
  braceSliceStr (fenceExtractPersistent reply)

/-- The reply text `vazal_wrapper.classify_intent` hands to `json.loads`. -/
def classifyExtractVazal (reply : String) : String :=
  braceSliceStr (fenceExtractVazal reply)

/-- The canned CHAT fallback object both wrappers build. -/
def chatFallbackObj : Json :=
  .obj [("type", .str "CHAT"),
        ("response", .str "Hello! How can I help you today?")]

/-- The TASK fallback object (the prompt as description). -/
def taskFallbackObj (prompt : String) : Json :=
  .obj [("type", .str "TASK"), ("description", .str prompt)]

/-- The greeting/farewell lexicon of `persistent_wrapper.classify_intent`. -/
def greetingLexicon : List String :=
  ["HI", "HELLO", "HEY", "THANKS", "THANK YOU", "BYE", "GOODBYE"]

/-- `persistent_wrapper.classify_intent`: return whatever value the reply
decodes to; on a decode failure fall back to matching the upper-cased
prompt against the greeting lexicon. -/
def classify_intent_persistent (prompt reply : String) : Json :=
  match pyLoads (classifyExtractPersistent reply) with
  | some j => j
  | none =>
    if greetingLexicon.any (fun g => pyContainsSub (pyUpper prompt) g) then
      chatFallbackObj
    else taskFallbackObj prompt

/-- `vazal_wrapper.classify_intent`: same decode, but its fallback matches
the upper-cased extracted reply for `CHAT`/`TASK` keywords. -/
def classify_intent_vazal (prompt reply : String) : Json :=
  let extracted := classifyExtractVazal reply
  match pyLoads extracted with
  | some j => j
  | none =>
    if pyContainsSub (pyUpper extracted) "CHAT" &&
        !(pyContainsSub (pyUpper extracted) "TASK") then
      chatFallbackObj
    else taskFallbackObj prompt

/-- The fallback classification as the spec sentence words it: heuristic
keyword matching against a small greeting/farewell lexicon, CHAT on a
match, TASK otherwise. -/
def specGreetingFallback (prompt : String) : Json :=
  if greetingLexicon.any (fun g => pyContainsSub (pyUpper prompt) g) then
    chatFallbackObj
  else taskFallbackObj prompt

/-! ## The persistent request channel (`server/persistent_wrapper.py`,
`handle_request` and `main`)

Output lines to stdout are modelled as `OutLine` values (stderr messages
are not on the channel).  The three mode handlers wrap LLM/agent work and
may raise; `execute` additionally emits progress lines before its
result. -/

inductive OutLine where
  | ready
  | progress (requestId : Json) (message : String)
  | result (requestId : Json) (payload : Json)
  | error (requestId : Json) (message : String)

/-- The three request handlers of the wrapper, abstracting the LLM and the
agent run: each either returns a payload or raises. -/
structure WrapperHandlers where
  classify : Json → Except String Json
  plan : Json → Except String Json
  execute : Json → List String × Except String Json

/-- Python `data.get(key, default)` on a decoded JSON object. -/
def jget (kvs : List (String × Json)) (k : String) (d : Json) : Json :=
  (kvs.lookup k).getD d

def isResultError : OutLine → Bool
  | .result _ _ => true
  | .error _ _ => true
  | _ => false

/-- `persistent_wrapper.handle_request`: dispatch on `mode`, emitting the
progress lines of an execute run and then exactly one result or error
line for the request. -/
def handle_request (h : WrapperHandlers) (kvs : List (String × Json)) :
    List OutLine :=
  let rid := jget kvs "requestId" (.str "unknown")
  let mode := jget kvs "mode" (.str "execute")
  let prompt := jget kvs "prompt" (.str "")
  if mode.isStr "classify" then
    match h.classify prompt with
    | .ok r => [.result rid r]
    | .error e => [.error rid e]
  else if mode.isStr "plan" then
    match h.plan prompt with
    | .ok r => [.result rid r]
    | .error e => [.error rid e]
  else if mode.isStr "execute" then
    let pe := h.execute prompt
    let progLines := pe.1.map (fun m => OutLine.progress rid m)
    match pe.2 with
    | .ok r => progLines ++ [.result rid r]
    | .error e => progLines ++ [.error rid e]
  else [.error rid ("Unknown mode: " ++ renderJson mode)]

/-- One iteration of the wrapper's stdin loop: blank lines are skipped;
lines `json.loads` rejects are reported on stderr only; decoded non-object
lines make `data.get` raise before the `try`, which the loop catches and
reports on stderr only — in all three cases nothing reaches stdout. -/
def processLine (h : WrapperHandlers) (line : String) : List OutLine :=
  let l := pyStrip line
  if pyStrEmpty l then []
  else
    match pyLoads l with
    | none => []
    | some (.obj kvs) => handle_request h kvs
    | some _ => []

/-- `persistent_wrapper.main`: the ready line, then the sequential
processing of the input lines in arrival order. -/
def wrapperMain (h : WrapperHandlers) (lines : List String) : List OutLine :=
  OutLine.ready :: lines.flatMap (processLine h)

/-- The requests a line contributes: its decoded object, when the line is
non-blank and decodes to a JSON object. -/
def parsedRequest (line : String) : Option (List (String × Json)) :=
  let l := pyStrip line
  if pyStrEmpty l then none
  else
    match pyLoads l with
    | some (.obj kvs) => some kvs
    | _ => none

/-- The single result-or-error line a request must produce, as the spec
words it: a `result` line on success, an `error` line on failure, tagged
with the request's id. -/
def requestFinalLine (h : WrapperHandlers) (kvs : List (String × Json)) :
    OutLine :=
  let rid := jget kvs "requestId" (.str "unknown")
  let mode := jget kvs "mode" (.str "execute")
  let prompt := jget kvs "prompt" (.str "")
  if mode.isStr "classify" then
    match h.classify prompt with
    | .ok r => .result rid r
    | .error e => .error rid e
  else if mode.isStr "plan" then
    match h.plan prompt with
    | .ok r => .result rid r
    | .error e => .error rid e
  else if mode.isStr "execute" then
    match (h.execute prompt).2 with
    | .ok r => .result rid r
    | .error e => .error rid e
  else .error rid ("Unknown mode: " ++ renderJson mode)

/-- Trivial handlers (used to instantiate channel statements concretely). -/
def trivialHandlers : WrapperHandlers :=
  ⟨fun _ => .ok .null, fun _ => .ok .null, fun _ => ([], .ok .null)⟩

/-! ## Message-log lifecycle across tasks (claim C9)

`persistent_wrapper.execute_task` ends its success path with
`agent.memory.messages = []`; an exception propagates to `handle_request`
with the log as `agent.run` left it.  `run_persistent_mode`
(`app/agent/persistent_mode.py`) never clears the log.  The inner
`agent.run` is not among the given sources; modelled from the spec: the
agent loop appends the request and the step results to the Message Log,
and may raise.  It is a parameter `run` returning the outcome and the
mutated log. -/

/-- The memory effect of `persistent_wrapper.execute_task`: run the agent,
then — on the success path only — reset the message log. -/
def executeTaskMemory
    (run : List Message → Except String Unit × List Message)
    (mem : List Message) : Except String Unit × List Message :=
  match run mem with
  | (.ok _, _) => (.ok (), [])
  | (.error e, mem2) => (.error e, mem2)

/-- A classification outcome inside `run_persistent_mode`. -/
inductive PIntent where
  | chat (response : String)
  | task
  deriving Repr, DecidableEq

/-- One request iteration of `run_persistent_mode`: a CHAT classification
answers directly; a TASK classification runs the agent; the log is never
reset (it even feeds the next classification's context). -/
def persistentModeStep (classify : List Message → PIntent)
    (run : List Message → Except String Unit × List Message)
    (mem : List Message) : List Message :=
  match classify mem with
  | .chat _ => mem
  | .task => (run mem).2

/-- Modelled from the spec: an agent run that appends the request message
to the Message Log and completes normally. -/
def appendingRun : List Message → Except String Unit × List Message :=
  fun mem => (.ok (), mem ++ [⟨Role.user, some "task prompt", []⟩])

/-- A classifier that labels every request a TASK. -/
def alwaysTask : List Message → PIntent := fun _ => .task

/-! ## Block editor (`app/tool/block_editor.py`, `BlockEditor.execute`)

The target file is `none` when absent, else its `readlines()` line list.
`ToolResult` is the source's output/error record. -/

structure ToolResult where
  output : Option String
  error : Option String
  deriving Repr, DecidableEq

def mkOut (s : String) : ToolResult := ⟨some s, none⟩

def mkErr (s : String) : ToolResult := ⟨none, some s⟩

/-- Python slice-index normalisation for a list of length `n`. -/
def pySliceIdx (n : Nat) (i : Int) : Nat :=
  if i < 0 then (max ((n : Int) + i) 0).toNat
  else min i.toNat n

/-- Python `l[a:b] = x` slice assignment (insertion at `a` when the
normalised window is empty). -/
def pySliceAssign {α : Type} (l : List α) (a b : Int) (x : List α) :
    List α :=
  let a2 := pySliceIdx l.length a
  let b2 := max a2 (pySliceIdx l.length b)
  l.take a2 ++ x ++ l.drop b2

/-- Python `del l[a:b]`. -/
def pyDelSlice {α : Type} (l : List α) (a b : Int) : List α :=
  pySliceAssign l a b []

/-- `BlockEditor.execute` over the target file state: returns the
`ToolResult` and the file contents after the call. -/
def block_editor_execute (command : String) (path : String)
    (start_line end_line : Option Int) (content : Option String)
    (file : Option (List String)) : ToolResult × Option (List String) :=
  if file.isNone && command != "insert" then
    (mkErr ("File not found: " ++ path), file)
  else
    let file1 := if file.isNone && command == "insert" then some [] else file
    let lines := file1.getD []
    let total : Int := lines.length
    if command == "read" then
      let start : Int := match start_line with
        | some sl => if sl != 0 then sl - 1 else 0
        | none => 0
      let endv : Int := match end_line with
        | some el => if el != 0 then el else total
        | none => total
      let startN := (max 0 start).toNat
      let endN := (min total endv).toNat
      let numbered := (List.range (endN - startN)).map (fun k =>
        let i := startN + k
        toString (i + 1) ++ "| " ++ pyRstrip (lines.getD i ""))
      (mkOut (pyJoin "\n" numbered), file1)
    else
      match start_line with
      | none => (mkErr "start_line is required for editing commands", file1)
      | some sl =>
        if sl < 1 || sl > total + 1 then
          (mkErr ("start_line " ++ toString sl ++
            " is out of bounds (File has " ++ toString lines.length ++
            " lines)"), file1)
        else
          let idxStart : Int := sl - 1
          if command == "insert" then
            match content with
            | none => (mkErr "content is required for insert", file1)
            | some c =>
              let newLines := (pySplitlines c).map (fun line => line ++ "\n")
              (mkOut ("Inserted " ++ toString newLines.length ++
                " lines at line " ++ toString sl),
               some (pySliceAssign lines idxStart idxStart newLines))
          else if command == "delete" then
            match end_line with
            | none => (mkErr "end_line is required for delete", file1)
            | some el =>
              if el < sl then
                (mkErr "end_line cannot be less than start_line", file1)
              else
                (mkOut ("Deleted lines " ++ toString sl ++ " to " ++
                  toString el), some (pyDelSlice lines idxStart el))
          else if command == "replace" then
            match end_line with
            | none => (mkErr "end_line is required for replace", file1)
            | some el =>
              match content with
              | none => (mkErr "content is required for replace", file1)
              | some c =>
                let newLines := (pySplitlines c).map (fun line => line ++ "\n")
                (mkOut ("Replaced lines " ++ toString sl ++ "-" ++
                  toString el ++ " with " ++ toString newLines.length ++
                  " new lines"),
                 some (pySliceAssign lines idxStart el newLines))
          else (mkErr ("Unknown command: " ++ command), file1)

/-! ## Concrete fixtures for witnesses and counterexamples -/

/-- An inner think step that completes normally without touching state. -/
def okInner : AgentState → Option Bool × AgentState :=
  fun s => (some true, s)

/-- Six lessons that all match the query `cat` with score 1: the
tie-breaking order of the source and of claim C1 differ on them. -/
def c1Store : List Lesson :=
  [⟨"cat a0", []⟩, ⟨"cat a1", []⟩, ⟨"cat a2", []⟩,
   ⟨"cat a3", []⟩, ⟨"cat a4", []⟩, ⟨"cat a5", []⟩]

/-- The identity semantic ranking (returns the candidates as given). -/
def semId : String → List VLesson → List VLesson := fun _ l => l

/-- Twenty-one USER-scope lessons: one more than the `limit=20` cap of the
USER tier fetch. -/
def c4StoreCap : List VLesson :=
  (List.range 21).map (fun i => ⟨"u" ++ toString i, "USER", "none", "", "", ""⟩)

/-- A two-lesson store with one USER and one GENERAL lesson. -/
def c4WitnessStore : List VLesson :=
  [⟨"be kind", "USER", "none", "", "", ""⟩,
   ⟨"general fact", "GENERAL", "none", "", "", ""⟩]

/-- A deterministic uuid supply for migration runs. -/
def c5Uuid : Nat → String := fun i => "id" ++ toString i

/-- A deterministic timestamp supply for migration runs. -/
def c5Now : Nat → String := fun i => "t" ++ toString i

/-- A two-item legacy lesson file with distinct contents. -/
def c5Data : List LegacyItem :=
  [LegacyItem.dict "use metric units" ["fmt"], LegacyItem.str "cite sources"]

/-! # Theorems -/

theorem lessonScore_body_eq (l : Lesson) (score : Nat) (w : String) :
    (if w.length < 3 then score
     else
       let s1 := if pyContainsSub (pyLower l.content) w then score + 1 else score
       if (l.tags.map pyLower).any (fun t => pyContainsSub t w) then
         s1 + 2
       else s1) = score + wordContrib l w := by
  unfold wordContrib
  by_cases hw : w.length < 3
  · simp [hw]
  · by_cases hc : pyContainsSub (pyLower l.content) w <;>
      by_cases ht : (l.tags.map pyLower).any
        (fun t => pyContainsSub t w) <;>
      simp [hw, hc, ht]

theorem lessonScore_eq_sum (qw : List String) (l : Lesson) :
    lessonScore qw l = (qw.map (wordContrib l)).sum := by
  suffices h : ∀ init : Nat,
      qw.foldl (fun score w =>
        if w.length < 3 then score
        else
          let s1 := if pyContainsSub (pyLower l.content) w then score + 1
                    else score
          if (l.tags.map pyLower).any (fun t => pyContainsSub t w) then
            s1 + 2
          else s1) init = init + (qw.map (wordContrib l)).sum by
    simpa [lessonScore] using h 0
  induction qw with
  | nil => intro init; simp
  | cons w ws ih =>
    intro init
    simp only [List.foldl_cons, List.map_cons, List.sum_cons,
      lessonScore_body_eq l init w, ih]
    omega

theorem lessonScore_eq_specScore (qw : List String) (l : Lesson) :
    lessonScore qw l = specScore qw l := by
  rw [lessonScore_eq_sum]
  unfold specScore
  induction qw with
  | nil => rfl
  | cons w ws ih =>
    simp only [List.map_cons, List.sum_cons, List.filter_cons]
    by_cases hw : 3 ≤ w.length
    · have hw' : ¬ w.length < 3 := by omega
      simp [hw, hw', wordContrib, ih]
    · have hw' : w.length < 3 := by omega
      simp [hw, hw', wordContrib, ih]

/-- Folding the scope scan from any canonical scope stays canonical. -/
theorem scopeFold_canonical (tags : List String) (p : String × String)
    (hp : p.1 = "GENERAL" ∨ p.1 = "ROLE" ∨ p.1 = "USER") :
    (tags.foldl scopeStep p).1 = "GENERAL" ∨
      (tags.foldl scopeStep p).1 = "ROLE" ∨
      (tags.foldl scopeStep p).1 = "USER" := by
  induction tags generalizing p with
  | nil => simpa using hp
  | cons t ts ih =>
    simp only [List.foldl_cons]
    apply ih
    unfold scopeStep
    by_cases h1 : pyContainsSub t "role:"
    · simp [h1]
    · by_cases h2 : pyContainsSub t "user"
      · simp [h1, h2]
      · simpa [h1, h2] using hp

/-- The scope computed by the migration scan is one of the three canonical
upper-case scope names. -/
theorem migrateScopeRole_fst (tags : List String) :
    (migrateScopeRole tags).1 = "GENERAL" ∨ (migrateScopeRole tags).1 = "ROLE"
      ∨ (migrateScopeRole tags).1 = "USER" :=
  scopeFold_canonical tags ("GENERAL", "none") (Or.inl rfl)

/-! ## Shared string lemmas -/

theorem strData_append (a b : String) : (a ++ b).data = a.data ++ b.data :=
  rfl

/-- Appending to a fixed front string is injective. -/
theorem dashLine_inj {p a b : String} (h : p ++ a = p ++ b) : a = b := by
  have h2 := congrArg String.data h
  simp only [strData_append] at h2
  have h3 : a.data = b.data := List.append_cancel_left h2
  cases a; cases b
  exact congrArg String.mk h3

/-- A dash line differs from any string that does not start with a dash. -/
theorem dashLine_ne {h : String} (c : String)
    (hh : h.data.head? ≠ some '-') : "- " ++ c ≠ h := by
  intro he
  apply hh
  rw [← he]
  rfl

/-! ## Claim C1 -/

/-- Claim C1, corrected: for a non-empty query, keyword-fallback retrieval
scores each lesson by +1 per distinct query word (of length ≥ 3) occurring
in the content and +2 per such word occurring in a tag, returns the top 5
positive scorers sorted stably by descending score — so ties keep store
order, oldest first — and falls back to the 3 most recent lessons when no
lesson scores above zero. -/
theorem C1_keyword_retrieval (store : List Lesson) (query : String)
    (_hq : query ≠ "") :
    get_relevant_lessons store query =
      getRelevantLessonsAmendedC1 store query := by
  simp only [get_relevant_lessons, getRelevantLessonsAmendedC1,
    lessonScore_eq_specScore]

theorem C1_keyword_retrieval_witness :
    ("cat" : String) ≠ "" ∧
      get_relevant_lessons c1Store "cat" =
        getRelevantLessonsAmendedC1 c1Store "cat" :=
  ⟨by decide, C1_keyword_retrieval c1Store "cat" (by decide)⟩

/-- Claim C1 as stated is false: on six equal-scoring lessons the source
keeps the five oldest (Python's sort is stable, so ties stay in store
order), while the claimed most-recent-first tie-break would keep the five
newest. -/
theorem C1_tiebreak_counterexample :
    get_relevant_lessons c1Store "cat" ≠
      getRelevantLessonsClaimC1 c1Store "cat" := by
  decide

/-! ## Claim C2 -/

theorem save_lesson_contains (s : List Lesson) (c : String)
    (t : List String) :
    (save_lesson s c t).any (fun l => l.content == c) = true := by
  unfold save_lesson
  by_cases h : s.any (fun l => l.content == c)
  · simp [h]
  · simp [h]

theorem vector_save_lesson_contains (s : List VLesson) (c sc r : String)
    (tg : List String) (id ts : String) :
    (vector_save_lesson s c sc r tg id ts).any
      (fun l => l.content == c) = true := by
  unfold vector_save_lesson
  by_cases h : s.any (fun l => l.content == c)
  · simp [h]
  · simp [h]

/-- Claim C2, confirmed: saving a lesson whose exact content is already
stored leaves both stores unchanged — in particular a second save of the
same content is a no-op for `LessonManager.save_lesson` and
`VectorLessonManager.save_lesson` (the persisted file/collection is a dump
of this list). -/
theorem C2_save_dedup_idempotent (s : List Lesson) (c : String)
    (t t2 : List String) (vs : List VLesson) (sc r : String)
    (tg : List String) (id ts sc2 r2 : String) (tg2 : List String)
    (id2 ts2 : String) :
    save_lesson (save_lesson s c t) c t2 = save_lesson s c t ∧
      vector_save_lesson (vector_save_lesson vs c sc r tg id ts) c sc2 r2
        tg2 id2 ts2 = vector_save_lesson vs c sc r tg id ts := by
  constructor
  · conv_lhs => rw [save_lesson]
    simp [save_lesson_contains]
  · conv_lhs => rw [vector_save_lesson]
    simp [vector_save_lesson_contains]

/-! ## Claim C3 -/

/-- Claim C3, corrected: when the inner think step returns normally, both
prompt fields are restored to their pre-call values; the exception case of
the claim fails (see the counterexample) because the restore lines are not
in a `finally` block. -/
theorem C3_prompt_restoration (inner : AgentState → Option Bool × AgentState)
    (bp : String) (s : AgentState)
    (h : (vazalThink inner bp s).1.isSome = true) :
    (vazalThink inner bp s).2.system_prompt = s.system_prompt ∧
      (vazalThink inner bp s).2.next_step_prompt = s.next_step_prompt := by
  unfold vazalThink at h ⊢
  rcases hp : inner (thinkInjectedState bp s) with ⟨ob, s3⟩
  rw [hp] at h
  cases ob
  · exact Bool.noConfusion h
  · exact ⟨rfl, rfl⟩

theorem C3_prompt_restoration_witness :
    (vazalThink okInner "BROWSER NEXT" c3State).1.isSome = true ∧
      ((vazalThink okInner "BROWSER NEXT" c3State).2.system_prompt =
          c3State.system_prompt ∧
        (vazalThink okInner "BROWSER NEXT" c3State).2.next_step_prompt =
          c3State.next_step_prompt) :=
  ⟨by decide, C3_prompt_restoration okInner "BROWSER NEXT" c3State (by decide)⟩

/-- Claim C3 as stated is false: when the inner think step raises, the
lesson-extended system prompt is left in place (no `finally`), so the
post-call `system_prompt` differs from the pre-call one. -/
theorem C3_restore_counterexample :
    (vazalThink raisingInner "BROWSER NEXT" c3State).2.system_prompt ≠
      c3State.system_prompt := by
  decide

/-! ## Claim C6 -/

theorem terminateStep_nonempty (acc : Option String) (tc : ToolCall)
    (hacc : ∀ x, acc = some x → pyStrEmpty x = false) :
    ∀ x, terminateStep acc tc = some x → pyStrEmpty x = false := by
  intro x hx
  unfold terminateStep at hx
  by_cases hn : tc.name == "terminate"
  · rw [if_pos hn] at hx
    cases ha : tc.arguments with
    | none => rw [ha] at hx; exact hacc x hx
    | some args =>
      rw [ha] at hx
      dsimp only at hx
      cases hl : args.lookup "output" with
      | none => rw [hl] at hx; exact hacc x hx
      | some v =>
        rw [hl] at hx
        dsimp only at hx
        by_cases hv : pyStrEmpty v
        · rw [if_pos hv] at hx; exact hacc x hx
        · rw [if_neg hv] at hx
          cases hx
          exact Bool.eq_false_iff.mpr hv
  · rw [if_neg hn] at hx; exact hacc x hx

theorem terminateFold_nonempty (tcs : List ToolCall) :
    ∀ (acc : Option String),
      (∀ x, acc = some x → pyStrEmpty x = false) →
      ∀ x, tcs.foldl terminateStep acc = some x → pyStrEmpty x = false := by
  induction tcs with
  | nil => intro acc hacc x hx; exact hacc x hx
  | cons tc rest ih =>
    intro acc hacc x hx
    rw [List.foldl_cons] at hx
    exact ih _ (terminateStep_nonempty acc tc hacc) x hx

theorem terminateOutput_nonempty (m : Message) (o : String)
    (h : terminateOutput m = some o) : pyStrEmpty o = false :=
  terminateFold_nonempty m.tool_calls none (by intro x hx; cases hx) o h

theorem extractScan_nonempty (l : List Message) :
    ∀ a, extractScan l = some a → pyStrEmpty a = false := by
  induction l with
  | nil => intro a h; cases h
  | cons m rest ih =>
    intro a h
    unfold extractScan at h
    by_cases hr : m.role == Role.assistant
    · rw [if_pos hr] at h
      cases ht : terminateOutput m with
      | some o =>
        rw [ht] at h
        cases h
        exact terminateOutput_nonempty m _ ht
      | none =>
        rw [ht] at h
        by_cases hc : pyTruthyStr m.content
        · rw [if_pos hc] at h
          cases h
          cases hm : m.content with
          | none => rw [hm] at hc; cases hc
          | some s =>
            rw [hm] at hc
            simp only [hm, Option.getD_some]
            simpa [pyTruthyStr] using hc
        · rw [if_neg hc] at h; exact ih a h
    · rw [if_neg hr] at h; exact ih a h

theorem extractScan_eq_findSome (l : List Message) :
    extractScan l = l.findSome? (fun m =>
      if m.role == Role.assistant then
        match terminateOutput m with
        | some o => some o
        | none =>
          if pyTruthyStr m.content then some (m.content.getD "") else none
      else none) := by
  induction l with
  | nil => rfl
  | cons m rest ih =>
    unfold extractScan
    rw [List.findSome?_cons]
    by_cases hr : m.role == Role.assistant
    · simp only [hr, ite_true]
      cases ht : terminateOutput m with
      | some o => simp [ht]
      | none =>
        simp only [ht]
        by_cases hc : pyTruthyStr m.content <;> simp [hc, ih]
    · simp [hr, ih]

theorem pyStrEmpty_append (a b : String) :
    pyStrEmpty (a ++ b) = (pyStrEmpty a && pyStrEmpty b) := by
  unfold pyStrEmpty
  rw [strData_append]
  cases a.data <;> simp

theorem terminateOutputFirst_nonempty (tcs : List ToolCall) (o : String)
    (h : terminateOutputFirst tcs = some o) : pyStrEmpty o = false := by
  induction tcs with
  | nil => cases h
  | cons tc rest ih =>
    unfold terminateOutputFirst at h
    by_cases hn : (tc.name == "terminate") = true
    · rw [if_pos hn] at h
      cases ha : tc.arguments with
      | none => rw [ha] at h; exact ih h
      | some args =>
        rw [ha] at h
        dsimp only at h
        cases hl : args.lookup "output" with
        | none => rw [hl] at h; exact ih h
        | some v =>
          rw [hl] at h
          dsimp only at h
          by_cases hv : pyStrEmpty v = true
          · rw [if_pos hv] at h; exact ih h
          · rw [if_neg hv] at h
            cases h
            rw [Bool.not_eq_true] at hv
            exact hv
    · rw [if_neg hn] at h; exact ih h

/-- With a truthy accumulator the `execute_task` scan never breaks on
content: the oldest terminate output wins, else the accumulator stands. -/
theorem executeTaskScan_truthy (r : List Message) :
    ∀ acc, pyStrEmpty acc = false →
      executeTaskScan r acc = (lastTermOutput r).getD acc := by
  induction r with
  | nil => intro acc _; rfl
  | cons m rest ih =>
    intro acc hacc
    by_cases hr : (m.role == Role.assistant) = true
    · cases ht : terminateOutputFirst m.tool_calls with
      | some o =>
        have ho := terminateOutputFirst_nonempty m.tool_calls o ht
        simp only [executeTaskScan, lastTermOutput, hr, ht, if_true, ho,
          Bool.false_and, Bool.false_eq_true, if_false, ih o ho]
        cases lastTermOutput rest <;> simp
      | none =>
        simp only [executeTaskScan, lastTermOutput, hr, ht, if_true, hacc,
          Bool.false_and, Bool.false_eq_true, if_false, ih acc hacc]
        cases lastTermOutput rest <;> simp
    · simp only [executeTaskScan, lastTermOutput, hr, Bool.false_eq_true,
        if_false, ih acc hacc]
      cases lastTermOutput rest <;> simp

/-- The `execute_task` scan started on the falsy initial accumulator, in
closed form: the newest decider message answers by content when it has no
terminate output, else the oldest terminate output of the log answers. -/
theorem executeTaskScan_empty (r : List Message) :
    executeTaskScan r "" =
      (match r.find? (fun m => m.role == Role.assistant &&
          ((terminateOutputFirst m.tool_calls).isSome ||
            pyTruthyStr m.content)) with
      | none => ""
      | some m =>
        match terminateOutputFirst m.tool_calls with
        | none => m.content.getD ""
        | some _ => (lastTermOutput r).getD "") := by
  induction r with
  | nil => rfl
  | cons m rest ih =>
    by_cases hr : (m.role == Role.assistant) = true
    · cases ht : terminateOutputFirst m.tool_calls with
      | some o =>
        have ho := terminateOutputFirst_nonempty m.tool_calls o ht
        have hfind : (m :: rest).find? (fun m => m.role == Role.assistant &&
            ((terminateOutputFirst m.tool_calls).isSome ||
              pyTruthyStr m.content)) = some m :=
          List.find?_cons_of_pos _ (by simp [hr, ht])
        rw [hfind]
        simp only [executeTaskScan, lastTermOutput, hr, ht, if_true, ho,
          Bool.false_and, Bool.false_eq_true, if_false,
          executeTaskScan_truthy rest o ho]
        cases lastTermOutput rest <;> simp
      | none =>
        by_cases hc : pyTruthyStr m.content = true
        · have hfind : (m :: rest).find? (fun m => m.role == Role.assistant &&
              ((terminateOutputFirst m.tool_calls).isSome ||
                pyTruthyStr m.content)) = some m :=
            List.find?_cons_of_pos _ (by simp [hr, hc])
          rw [hfind]
          have hpe : pyStrEmpty "" = true := rfl
          simp [executeTaskScan, hr, ht, hc, hpe]
        · have hfind : (m :: rest).find? (fun m => m.role == Role.assistant &&
              ((terminateOutputFirst m.tool_calls).isSome ||
                pyTruthyStr m.content)) =
              rest.find? (fun m => m.role == Role.assistant &&
                ((terminateOutputFirst m.tool_calls).isSome ||
                  pyTruthyStr m.content)) :=
            List.find?_cons_of_neg _ (by simp [hr, ht, hc])
          rw [hfind]
          have hlast : lastTermOutput (m :: rest) = lastTermOutput rest := by
            rw [lastTermOutput]
            cases hl2 : lastTermOutput rest <;> simp [hl2, hr, ht]
          rw [hlast]
          simp only [executeTaskScan, hr, ht, if_true, hc, Bool.and_false,
            Bool.false_eq_true, if_false]
          exact ih
    · have hfind : (m :: rest).find? (fun m => m.role == Role.assistant &&
          ((terminateOutputFirst m.tool_calls).isSome ||
            pyTruthyStr m.content)) =
          rest.find? (fun m => m.role == Role.assistant &&
            ((terminateOutputFirst m.tool_calls).isSome ||
              pyTruthyStr m.content)) :=
        List.find?_cons_of_neg _ (by simp [hr])
      rw [hfind]
      have hlast : lastTermOutput (m :: rest) = lastTermOutput rest := by
        rw [lastTermOutput]
        cases hl2 : lastTermOutput rest <;> simp [hl2, hr]
      rw [hlast]
      simp only [executeTaskScan, hr, Bool.false_eq_true, if_false]
      exact ih

/-- Claim C6, corrected, with the non-emptiness part confirmed for both
cited sources.  In `main.py` the extraction scans assistant messages
most-recent-first, at each message a terminate call's truthy output takes
priority over that message's content and the first yielding message
decides; when none yields (or the scan yields exactly the completion
notice) the most recent truthy tool output is surfaced with the
completion prefix, else the fixed notice.  In
`persistent_wrapper.execute_task` the newest assistant message with a
truthy terminate output or truthy content decides — by its content when
it has no terminate output, and otherwise by the terminate output of the
*oldest* assistant message bearing one (there is no outer break) — and the
empty-answer fallback is a created-files listing or a bare notice, never a
tool output.  Both extractions always surface a non-empty answer. -/
theorem C6_final_answer (msgs : List Message) (files : List String) :
    (extractFinalAnswer msgs = extractAmendedC6 msgs ∧
      pyStrEmpty (extractFinalAnswer msgs) = false) ∧
    (executeTaskScan msgs.reverse "" = executeTaskScanSpec msgs ∧
      pyStrEmpty (executeTaskFinal files msgs) = false) := by
  refine ⟨⟨?_, ?_⟩, ?_, ?_⟩
  · unfold extractFinalAnswer extractAmendedC6
    rw [extractScan_eq_findSome]
    cases msgs.reverse.findSome? _ <;> simp
  · unfold extractFinalAnswer
    cases hs : extractScan msgs.reverse with
    | some a =>
      have ha := extractScan_nonempty msgs.reverse a hs
      by_cases he : (a == completionNotice) = true
      · rw [if_pos he]
        cases msgs.reverse.find? (fun m =>
            m.role == Role.tool && pyTruthyStr m.content) with
        | some m =>
          have hpre :
              pyStrEmpty "✅ Task Completed. Last Tool Output:\n\n" = false := by
            decide
          simp [pyStrEmpty_append, hpre]
        | none => exact ha
      · rw [if_neg he]; exact ha
    | none =>
      simp only [beq_self_eq_true, if_pos]
      cases msgs.reverse.find? (fun m =>
          m.role == Role.tool && pyTruthyStr m.content) with
      | some m =>
        have hpre :
            pyStrEmpty "✅ Task Completed. Last Tool Output:\n\n" = false := by
          decide
        simp [pyStrEmpty_append, hpre]
      | none => decide
  · rw [executeTaskScan_empty msgs.reverse]
    unfold executeTaskScanSpec
    cases msgs.reverse.find? (fun m => m.role == Role.assistant &&
        ((terminateOutputFirst m.tool_calls).isSome ||
          pyTruthyStr m.content)) with
    | none => rfl
    | some m =>
      dsimp only
      cases terminateOutputFirst m.tool_calls with
      | none => rfl
      | some o =>
        dsimp only
        cases lastTermOutput msgs.reverse <;> rfl
  · unfold executeTaskFinal
    by_cases hempty : pyStrEmpty (executeTaskScan msgs.reverse "") = true
    · rw [if_pos hempty]
      by_cases hf : files.isEmpty = true
      · simp [hf]
        decide
      · rw [Bool.not_eq_true] at hf
        have hpre :
            pyStrEmpty "✅ Task completed! Created " = false := by decide
        simp [hf, pyStrEmpty_append, hpre]
    · rw [Bool.not_eq_true] at hempty
      rw [if_neg (by rw [hempty]; exact Bool.false_ne_true)]
      by_cases hsfx : (!files.isEmpty &&
          !(pyContainsSub (pyLower (executeTaskScan msgs.reverse "")) "file")) =
            true
      · rw [if_pos hsfx]
        simp [pyStrEmpty_append, hempty]
      · rw [if_neg hsfx]
        exact hempty

/-- Claim C6 as stated is false on `c6Log`: the source surfaces the newer
assistant content `X`, while the claimed global priority demands the older
terminate output `Y`. -/
theorem C6_priority_counterexample :
    extractFinalAnswer c6Log = "X" ∧ extractClaimC6 c6Log = "Y" ∧
      extractFinalAnswer c6Log ≠ extractClaimC6 c6Log := by
  refine ⟨by decide, by decide, by decide⟩

/-! ## Claim C4 -/

/-- Claim C4, corrected: a USER-scope lesson line is always in the
retrieval output regardless of the query, provided the store holds at most
20 USER-scope lessons (the source fetches the USER tier with `limit=20`);
and under the store's content-uniqueness invariant a GENERAL-scope lesson
line never appears in the output of an empty-query retrieval (the GENERAL
tier only runs on a non-empty query).  `semQ` is any semantic ranking that
returns a subset of its candidates. -/
theorem C4_scope_isolation (semQ : String → List VLesson → List VLesson)
    (hsub : ∀ q cands x, x ∈ semQ q cands → x ∈ cands)
    (store : List VLesson) (query role : String) (v : VLesson)
    (hv : v ∈ store) :
    (v.scope = "USER" →
      (store.filter (fun w => w.scope == "USER")).length ≤ 20 →
      ("- " ++ v.content) ∈ vectorGetRelevant semQ store query role) ∧
    (v.scope = "GENERAL" → (store.map VLesson.content).Nodup →
      ("- " ++ v.content) ∉ vectorGetRelevant semQ store "" role) := by
  constructor
  · intro hscope hlen
    have hvf : v ∈ store.filter (fun w => w.scope == "USER") :=
      List.mem_filter.mpr ⟨hv, by simp [hscope]⟩
    have htake : (store.filter (fun w => w.scope == "USER")).take 20 =
        store.filter (fun w => w.scope == "USER") :=
      List.take_of_length_le hlen
    unfold vectorGetRelevant
    dsimp only
    rw [htake]
    have hne : (store.filter (fun w => w.scope == "USER")).isEmpty = false := by
      cases he : (store.filter (fun w => w.scope == "USER")) with
      | nil => rw [he] at hvf; cases hvf
      | cons a t => rfl
    rw [hne]
    apply List.mem_append_left
    apply List.mem_append_left
    simp only [Bool.false_eq_true, if_false]
    exact List.mem_cons_of_mem _ (List.mem_map.mpr ⟨v, hvf, rfl⟩)
  · intro hscope hnodup hmem
    unfold vectorGetRelevant at hmem
    dsimp only at hmem
    have hq : pyStrEmpty "" = true := rfl
    rw [hq] at hmem
    simp only [Bool.not_true, Bool.false_eq_true, if_false,
      List.append_nil] at hmem
    rcases List.mem_append.mp hmem with h1 | h2
    · -- USER tier
      by_cases he : (store.filter (fun w => w.scope == "USER")).take 20
          |>.isEmpty
      · rw [he] at h1
        simp at h1
      · rw [Bool.not_eq_true] at he
        rw [he] at h1
        simp only [Bool.false_eq_true, if_false] at h1
        rcases List.mem_cons.mp h1 with hh | hline
        · exact absurd hh (dashLine_ne v.content (by decide))
        · rcases List.mem_map.mp hline with ⟨u, hu, hueq⟩
          have hu2 : u ∈ store.filter (fun w => w.scope == "USER") :=
            List.mem_of_mem_take hu
          have hu3 := List.mem_filter.mp hu2
          have hcontent : u.content = v.content := dashLine_inj hueq
          have huv : u = v :=
            List.inj_on_of_nodup_map hnodup hu3.1 hv hcontent
          rw [huv] at hu3
          rw [hscope] at hu3
          exact absurd hu3.2 (by decide)
    · -- ROLE tier
      by_cases hc : (!(pyStrEmpty role) && role != "none") = true
      · rw [hc] at h2
        simp only [if_true] at h2
        by_cases hd : ((semQ "general guidelines"
            (store.filter (fun w => w.scope == "ROLE" && w.role == role))).take
              5).isEmpty
        · rw [hd] at h2
          simp at h2
        · rw [Bool.not_eq_true] at hd
          rw [hd] at h2
          simp only [Bool.false_eq_true, if_false] at h2
          rcases List.mem_cons.mp h2 with hh | hline
          · have hhead : ("\n## 👔 ROLE GUIDELINES (" ++ role ++
                "):").data.head? = some '\n' := rfl
            have hne2 : ("\n## 👔 ROLE GUIDELINES (" ++ role ++
                "):").data.head? ≠ some '-' := by rw [hhead]; decide
            exact absurd hh (dashLine_ne v.content hne2)
          · rcases List.mem_map.mp hline with ⟨u, hu, hueq⟩
            have hu2 := hsub _ _ _ (List.mem_of_mem_take hu)
            have hu3 := List.mem_filter.mp hu2
            have hcontent : u.content = v.content := dashLine_inj hueq
            have huv : u = v :=
              List.inj_on_of_nodup_map hnodup hu3.1 hv hcontent
            have hrole := hu3.2
            rw [huv, hscope] at hrole
            simp at hrole
      · rw [Bool.not_eq_true] at hc
        rw [hc] at h2
        simp at h2

theorem C4_scope_isolation_witness :
    (("- " ++ ("be kind" : String)) ∈
        vectorGetRelevant semId c4WitnessStore "any query" "none") ∧
      (("- " ++ ("general fact" : String)) ∉
        vectorGetRelevant semId c4WitnessStore "" "none") :=
  ⟨(C4_scope_isolation semId (fun _ _ _ h => h) c4WitnessStore "any query"
      "none" ⟨"be kind", "USER", "none", "", "", ""⟩ (by decide)).1
      (by decide) (by decide),
   (C4_scope_isolation semId (fun _ _ _ h => h) c4WitnessStore "" "none"
      ⟨"general fact", "GENERAL", "none", "", "", ""⟩ (by decide)).2
      (by decide) (by decide)⟩

/-- Claim C4 as stated is false: with 21 USER-scope lessons the `limit=20`
fetch drops one of them, so a saved USER lesson can be absent from the
retrieval output. -/
theorem C4_user_cap_counterexample :
    (⟨"u20", "USER", "none", "", "", ""⟩ : VLesson) ∈ c4StoreCap ∧
      ("- " ++ ("u20" : String)) ∉
        vectorGetRelevant semId c4StoreCap "" "none" := by
  refine ⟨by decide, by decide⟩

/-! ## Claim C5 -/

theorem pyUpper_canonical_scope (tags : List String) :
    pyUpper (migrateScopeRole tags).1 = (migrateScopeRole tags).1 := by
  rcases migrateScopeRole_fst tags with h | h | h <;> rw [h] <;> decide

theorem migrateGo_eq (uuid now : Nat → String) (data : List LegacyItem) :
    ∀ (store : List VLesson) (i : Nat),
      (∀ item ∈ data,
        store.any (fun l => l.content == legacyContent item) = false) →
      (data.map legacyContent).Nodup →
      migrateGo uuid now i store data = store ++ upgradeAll uuid now i data := by
  induction data with
  | nil =>
    intro store i _ _
    simp [migrateGo, upgradeAll]
  | cons item rest ih =>
    intro store i hd hn
    have hitem := hd item (List.mem_cons_self item rest)
    have hsave : vector_save_lesson store (legacyContent item)
        (migrateScopeRole (legacyTags item)).1
        (migrateScopeRole (legacyTags item)).2
        (legacyTags item) (uuid i) (now i) =
        store ++ [upgradeLegacy uuid now i item] := by
      unfold vector_save_lesson upgradeLegacy
      rw [hitem]
      simp only [Bool.false_eq_true, if_false]
      rw [pyUpper_canonical_scope]
    have hn2 : (rest.map legacyContent).Nodup := by
      rw [List.map_cons, List.nodup_cons] at hn
      exact hn.2
    have hhead : legacyContent item ∉ rest.map legacyContent := by
      rw [List.map_cons, List.nodup_cons] at hn
      exact hn.1
    rw [migrateGo]
    rw [hsave]
    rw [ih (store ++ [upgradeLegacy uuid now i item]) (i + 1) ?_ hn2]
    · rw [upgradeAll]
      simp [List.append_assoc]
    · intro it hit
      rw [List.any_append]
      rw [hd it (List.mem_cons_of_mem _ hit)]
      have hne : legacyContent item ≠ legacyContent it := by
        intro hcontra
        exact hhead (hcontra ▸ List.mem_map_of_mem legacyContent hit)
      simp [upgradeLegacy, hne]

/-- Claim C5, corrected: on a legacy file with pairwise-distinct contents,
the first read migrates each legacy lesson into a record with its content
and comma-joined tags preserved, but the scope is GENERAL with role none
only when no tag triggers the scan — a tag containing `role:` yields scope
ROLE with the role read from the tag, and an other tag containing `user`
yields scope USER. -/
theorem C5_migration (uuid now : Nat → String) (data : List LegacyItem)
    (hnodup : (data.map legacyContent).Nodup) :
    migrate_old_lessons uuid now data = upgradeAll uuid now 0 data := by
  unfold migrate_old_lessons
  have h := migrateGo_eq uuid now data [] 0 (by intro item _; rfl) hnodup
  simpa using h

theorem C5_migration_witness :
    (c5Data.map legacyContent).Nodup ∧
      migrate_old_lessons c5Uuid c5Now c5Data =
        upgradeAll c5Uuid c5Now 0 c5Data :=
  ⟨by decide, C5_migration c5Uuid c5Now c5Data (by decide)⟩

/-- Claim C5 as stated is false: a legacy lesson whose tag list is
`["user"]` is migrated with scope USER, not GENERAL. -/
theorem C5_scope_counterexample :
    (migrate_old_lessons c5Uuid c5Now
        [LegacyItem.dict "be metric" ["user"]]).map VLesson.scope =
      ["USER"] ∧ ("USER" : String) ≠ "GENERAL" :=
  ⟨by decide, by decide⟩

/-! ## Claim C7 -/

theorem filter_progress_nil (rid : Json) (msgs : List String) :
    (msgs.map (fun m => OutLine.progress rid m)).filter isResultError = [] := by
  induction msgs with
  | nil => rfl
  | cons m rest ih => simp [List.filter_cons, isResultError, ih]

theorem handle_request_resultError (h : WrapperHandlers)
    (kvs : List (String × Json)) :
    (handle_request h kvs).filter isResultError = [requestFinalLine h kvs] := by
  unfold handle_request requestFinalLine
  by_cases m1 : (jget kvs "mode" (Json.str "execute")).isStr "classify" = true
  · rw [if_pos m1, if_pos m1]
    cases h.classify (jget kvs "prompt" (Json.str "")) <;>
      simp [isResultError, List.filter_cons]
  · rw [if_neg m1, if_neg m1]
    by_cases m2 : (jget kvs "mode" (Json.str "execute")).isStr "plan" = true
    · rw [if_pos m2, if_pos m2]
      cases h.plan (jget kvs "prompt" (Json.str "")) <;>
        simp [isResultError, List.filter_cons]
    · rw [if_neg m2, if_neg m2]
      by_cases m3 : (jget kvs "mode" (Json.str "execute")).isStr "execute" = true
      · rw [if_pos m3, if_pos m3]
        cases hpe : (h.execute (jget kvs "prompt" (Json.str ""))).2 <;>
          simp [hpe, isResultError, List.filter_cons, List.filter_append,
            filter_progress_nil]
      · rw [if_neg m3, if_neg m3]
        simp [isResultError, List.filter_cons]

theorem processLine_resultError (h : WrapperHandlers) (line : String) :
    (processLine h line).filter isResultError =
      match parsedRequest line with
      | none => []
      | some kvs => [requestFinalLine h kvs] := by
  unfold processLine parsedRequest
  by_cases he : pyStrEmpty (pyStrip line) = true
  · simp [he]
  · rw [Bool.not_eq_true] at he
    simp only [he, Bool.false_eq_true, if_false]
    cases hl : pyLoads (pyStrip line) with
    | none => rfl
    | some j => cases j <;> simp [handle_request_resultError]

/-- Claim C7, corrected: every well-formed input line — one that is
non-blank and decodes to a JSON object — produces exactly one result or
error line tagged with its request id, and those lines appear in exactly
the order of the input lines (the loop awaits each request before reading
the next); a line that is blank, fails to decode, or decodes to a
non-object produces no output line at all (it is reported on stderr
only). -/
theorem C7_channel_discipline (h : WrapperHandlers) (lines : List String) :
    (wrapperMain h lines).filter isResultError =
      (lines.filterMap parsedRequest).map (requestFinalLine h) := by
  unfold wrapperMain
  have haux : ∀ ls : List String,
      (ls.flatMap (processLine h)).filter isResultError =
        (ls.filterMap parsedRequest).map (requestFinalLine h) := by
    intro ls
    induction ls with
    | nil => rfl
    | cons l rest ih =>
      rw [List.flatMap_cons, List.filter_append, ih, List.filterMap_cons,
        processLine_resultError]
      cases parsedRequest l <;> simp
  rw [List.filter_cons]
  simpa [isResultError] using haux lines

/-- Claim C7 as stated is false: a line that is not JSON yields zero
result/error lines, not one per input line. -/
theorem C7_malformed_line_counterexample :
    (wrapperMain trivialHandlers ["this is not json"]).filter isResultError =
        [] ∧
      (["this is not json"] : List String).length = 1 :=
  ⟨rfl, rfl⟩

/-! ## Claim C8 -/

/-- Claim C8, corrected: both classifiers are total functions of the
prompt and the reply (the parse path is wrapped in `except`), and when
JSON decoding of the extracted reply fails, the persistent wrapper falls
back to the greeting/farewell lexicon matched against the prompt (CHAT on
a match, TASK otherwise), while the CLI wrapper matches the extracted
reply for a `CHAT` keyword; but when decoding succeeds the decoded value
is returned as-is, even when it is not a CHAT/TASK object. -/
theorem C8_classification_fallback (prompt reply : String) :
    (pyLoads (classifyExtractPersistent reply) = none →
      classify_intent_persistent prompt reply = specGreetingFallback prompt) ∧
    (∀ j, pyLoads (classifyExtractPersistent reply) = some j →
      classify_intent_persistent prompt reply = j) ∧
    (pyLoads (classifyExtractVazal reply) = none →
      classify_intent_vazal prompt reply =
        (if pyContainsSub (pyUpper (classifyExtractVazal reply)) "CHAT" &&
            !(pyContainsSub (pyUpper (classifyExtractVazal reply)) "TASK")
          then chatFallbackObj else taskFallbackObj prompt)) := by
  refine ⟨?_, ?_, ?_⟩
  · intro hnone
    unfold classify_intent_persistent specGreetingFallback
    rw [hnone]
  · intro j hsome
    unfold classify_intent_persistent
    rw [hsome]
  · intro hnone
    unfold classify_intent_vazal
    dsimp only
    rw [hnone]

theorem C8_classification_fallback_witness :
    pyLoads (classifyExtractPersistent "CHAT") = none ∧
      classify_intent_persistent "hi there" "CHAT" =
        specGreetingFallback "hi there" :=
  ⟨rfl, (C8_classification_fallback "hi there" "CHAT").1 rfl⟩

/-- Claim C8 as stated is false: the reply `5` does not match the expected
output grammar, yet no lexicon fallback runs — `json.loads` accepts it and
the classifier returns the bare JSON number, which is neither the CHAT
fallback the lexicon match (`hi`) calls for nor any CHAT/TASK object. -/
theorem C8_nonobject_counterexample :
    classify_intent_persistent "hi" "5" = Json.num 5 ∧
      specGreetingFallback "hi" = chatFallbackObj ∧
      Json.num 5 ≠ chatFallbackObj := by
  refine ⟨rfl, rfl, ?_⟩
  intro hcontra
  cases hcontra

/-! ## Claim C9 -/

/-- Claim C9, corrected: in the stdin/stdout persistent wrapper the
message log is cleared when an execute task completes successfully, so the
next task runs exactly as on an empty log; but a task whose run raises
leaves the log as the run left it, and `run_persistent_mode` never clears
the log at all (see the counterexample). -/
theorem C9_fresh_log
    (run1 run2 : List Message → Except String Unit × List Message)
    (mem : List Message)
    (h : (executeTaskMemory run1 mem).1 = Except.ok ()) :
    executeTaskMemory run2 (executeTaskMemory run1 mem).2 =
      executeTaskMemory run2 [] := by
  unfold executeTaskMemory at h ⊢
  rcases hr : run1 mem with ⟨out, mem2⟩
  rw [hr] at h
  cases out with
  | ok u => rfl
  | error e =>
    dsimp only at h
    exact Except.noConfusion h

theorem C9_fresh_log_witness :
    (executeTaskMemory appendingRun []).1 = Except.ok () ∧
      executeTaskMemory appendingRun (executeTaskMemory appendingRun []).2 =
        executeTaskMemory appendingRun [] :=
  ⟨rfl, C9_fresh_log appendingRun appendingRun [] rfl⟩

/-- Claim C9 as stated is false for `run_persistent_mode`: after a task
that appended a message to the log, the log is not cleared, so the next
task of the long-lived process does not start from an empty message
log. -/
theorem C9_retained_log_counterexample :
    persistentModeStep alwaysTask appendingRun [] ≠ [] := by
  decide

/-! ## Claim C10 -/

/-- Claim C10, confirmed: whenever `BlockEditor.execute` returns an error
and the target file existed, the file contents are unchanged (every write
happens only on a success path); and an `insert` on a missing path first
creates the empty file, which is what remains when the call then fails
validation. -/
theorem C10_error_leaves_file (command path : String)
    (start_line end_line : Option Int) (content : Option String)
    (ls : List String) :
    ((block_editor_execute command path start_line end_line content
        (some ls)).1.error.isSome = true →
      (block_editor_execute command path start_line end_line content
        (some ls)).2 = some ls) ∧
    (command = "insert" →
      (block_editor_execute command path start_line end_line content
        none).1.error.isSome = true →
      (block_editor_execute command path start_line end_line content
        none).2 = some []) := by
  constructor
  · intro herr
    unfold block_editor_execute at herr ⊢
    simp only [Option.isNone_some, Bool.false_and, Bool.false_eq_true,
      if_false, Option.getD_some] at herr ⊢
    by_cases hread : (command == "read") = true
    · rw [if_pos hread] at herr
      simp [mkOut] at herr
    · rw [if_neg hread] at herr ⊢
      cases start_line with
      | none => rfl
      | some sl =>
        dsimp only at herr ⊢
        by_cases hb : (sl < 1 || sl > (ls.length : Int) + 1) = true
        · rw [if_pos hb]
        · rw [if_neg hb] at herr ⊢
          by_cases hins : (command == "insert") = true
          · rw [if_pos hins] at herr ⊢
            cases content with
            | none => rfl
            | some c =>
              dsimp only at herr
              simp [mkOut] at herr
          · rw [if_neg hins] at herr ⊢
            by_cases hdel : (command == "delete") = true
            · rw [if_pos hdel] at herr ⊢
              cases end_line with
              | none => rfl
              | some el =>
                dsimp only at herr ⊢
                by_cases hlt : el < sl
                · rw [if_pos hlt]
                · rw [if_neg hlt] at herr ⊢
                  simp [mkOut] at herr
            · rw [if_neg hdel] at herr ⊢
              by_cases hrep : (command == "replace") = true
              · rw [if_pos hrep] at herr ⊢
                cases end_line with
                | none => rfl
                | some el =>
                  dsimp only at herr ⊢
                  cases content with
                  | none => rfl
                  | some c =>
                    dsimp only at herr
                    simp [mkOut] at herr
              · rw [if_neg hrep]
  · intro hcmd herr
    subst hcmd
    unfold block_editor_execute at herr ⊢
    simp only [Option.isNone_none, Bool.true_and, Option.getD_some] at herr ⊢
    norm_num at herr ⊢
    cases start_line with
    | none => rfl
    | some sl =>
      dsimp only at herr ⊢
      rw [if_neg (show ¬(("insert" : String) = "read") by decide)] at herr ⊢
      by_cases hb : sl = 1
      · rw [if_pos hb] at herr ⊢
        cases content with
        | none => rfl
        | some c =>
          dsimp only at herr
          simp [mkOut] at herr
      · rw [if_neg hb]

theorem C10_error_leaves_file_witness :
    ((block_editor_execute "delete" "f.txt" none none none
        (some ["x\n"])).2 = some ["x\n"]) ∧
      ((block_editor_execute "insert" "f.txt" none none none none).2 =
        some []) :=
  ⟨(C10_error_leaves_file "delete" "f.txt" none none none ["x\n"]).1
      (by decide),
   (C10_error_leaves_file "insert" "f.txt" none none none []).2 rfl
      (by decide)⟩

end Vazal
